import Mathlib

/-!
Verification of the experiment control plane of the AIFX013_VCR repository.

The development shallowly embeds, over Nat / Rat / Real:
- the group-aware splitter split_data of 02_prepare_data.py together with
  the group-level shuffle split it delegates to (sklearn GroupShuffleSplit,
  whose documented index arithmetic is reproduced);
- the smooth modulation loss of src/losses/smooth_modulation.py;
- the resumable training loop of 06_train.py with the EarlyStopping callback
  of src/utils/callbacks.py;
- the Optuna study runner of src/optimization/optuna_runner.py, with the
  documented semantics of optuna Study.optimize (n_trials new trials per
  call, empty catch set by default).

Randomness is made explicit: numpy RandomState(seed).permutation(n) is
modelled by a parameter rng : Nat -> Nat -> List Nat, assumed in theorems to
return a permutation of List.range n; float arithmetic is modelled by exact
rationals or reals.
-/

attribute [local semireducible] Rat.add Rat.mul Rat.inv Rat.sub

/-- Decidable equality for Except values, used to evaluate the embedded
fallible functions on concrete inputs. -/
instance exceptDecEq {ε α : Type _} [DecidableEq ε] [DecidableEq α] :
    DecidableEq (Except ε α) := fun x y =>
  match x, y with
  | Except.error a, Except.error b =>
    match decEq a b with
    | Decidable.isTrue h => Decidable.isTrue (h ▸ rfl)
    | Decidable.isFalse h => Decidable.isFalse (fun hc => h (by cases hc; rfl))
  | Except.ok a, Except.ok b =>
    match decEq a b with
    | Decidable.isTrue h => Decidable.isTrue (h ▸ rfl)
    | Decidable.isFalse h => Decidable.isFalse (fun hc => h (by cases hc; rfl))
  | Except.error _, Except.ok _ => Decidable.isFalse (fun hc => by cases hc)
  | Except.ok _, Except.error _ => Decidable.isFalse (fun hc => by cases hc)

/-- Lexicographic comparison of char lists by code point, the order numpy
uses when sorting an array of strings. -/
def charListLtB : List Char → List Char → Bool
  | [], [] => false
  | [], _ :: _ => true
  | _ :: _, [] => false
  | c :: cs, d :: ds =>
    if c.toNat < d.toNat then true
    else if d.toNat < c.toNat then false
    else charListLtB cs ds

/-- String comparison by code points (same order as String.lt, spelled out
so that it evaluates). -/
def strLtB (a b : String) : Bool := charListLtB a.data b.data

/-- One manifest record as seen by the splitter: an id plus the (optional)
structured metadata dictionary. -/
structure SRecord where
  id : String
  meta : List (String × String)
deriving DecidableEq

/-- Lookup of a key in the record metadata dictionary. -/
def metaLookup (meta : List (String × String)) (k : String) : Option String :=
  (meta.find? (fun p => p.1 == k)).map (fun p => p.2)

/-- extract_group_key of 02_prepare_data.py: group_by None gives the id;
otherwise the meta entry; otherwise, for camera_id, the second
underscore-delimited token of the id when there are at least two tokens;
otherwise the id. -/
def extract_group_key (r : SRecord) (groupBy : Option String) : String :=
  match groupBy with
  | none => r.id
  | some g =>
    match metaLookup r.meta g with
    | some v => v
    | none =>
      if g = "camera_id" then
        match r.id.splitOn "_" with
        | _ :: p :: _ => p
        | _ => r.id
      else r.id

/-- np.unique on strings: ascending sorted list of the distinct elements. -/
def uniqueSorted (l : List String) : List String :=
  (l.insertionSort (fun a b => strLtB a b = true ∨ a = b)).dedup

/-- sklearn _validate_shuffle_split for a float test_size: bounds check,
n_test = ceil(test_size * n_samples), n_train = n_samples - n_test, error
when the resulting train side is empty. -/
def validate_shuffle_split (nSamples : ℕ) (testSize : ℚ) :
    Except String (ℕ × ℕ) :=
  if testSize ≤ 0 ∨ 1 ≤ testSize then
    Except.error "test_size should be in the (0, 1) range"
  else
    let nTest := (Int.ceil (testSize * (nSamples : ℚ))).toNat
    let nTrain := nSamples - nTest
    if nTrain = 0 then
      Except.error "the resulting train set will be empty"
    else Except.ok (nTrain, nTest)

/-- sklearn GroupShuffleSplit with n_splits = 1: the distinct groups are
split by a permutation of their sorted unique list (test groups are the
first n_test entries of the permutation, train groups the next n_train);
every sample index inherits the side of its group, in increasing index
order.  perm stands for RandomState(seed).permutation(n_groups). -/
def groupShuffleSplit (perm : List ℕ) (testSize : ℚ) (groups : List String) :
    Except String (List ℕ × List ℕ) :=
  let classes := uniqueSorted groups
  match validate_shuffle_split classes.length testSize with
  | Except.error e => Except.error e
  | Except.ok (nTrain, nTest) =>
    let indTest := perm.take nTest
    let indTrain := (perm.drop nTest).take nTrain
    let train := (List.range groups.length).filter
      (fun i => decide (classes.indexOf (groups.getD i "") ∈ indTrain))
    let test := (List.range groups.length).filter
      (fun i => decide (classes.indexOf (groups.getD i "") ∈ indTest))
    Except.ok (train, test)

/-- Group keys of a record list, as the splitter computes them. -/
def groupsOf (records : List SRecord) (groupBy : Option String) : List String :=
  records.map (fun r => extract_group_key r groupBy)

/-- First stage of split_data: when test_ratio is positive, a group-level
split of all indices into train+val versus test; otherwise everything is
train+val and the test side is empty. -/
def stage1 (rng : ℕ → ℕ → List ℕ) (groups : List String) (n : ℕ)
    (rTest : ℚ) (seed : ℕ) : Except String (List ℕ × List ℕ) :=
  if 0 < rTest then
    groupShuffleSplit (rng seed (uniqueSorted groups).length) rTest groups
  else Except.ok (List.range n, [])

/-- val_size_adjusted of split_data: val_ratio / (train_ratio + val_ratio)
when the denominator is positive, else 0. -/
def valSizeAdj (rTrain rVal : ℚ) : ℚ :=
  if 0 < rTrain + rVal then rVal / (rTrain + rVal) else 0

/-- Second stage of split_data: a group-level split of the train+val
indices into train versus val, using the local positions returned by the
shuffle split to index back into trainvalIdx. -/
def stage2 (rng : ℕ → ℕ → List ℕ) (groups : List String)
    (trainvalIdx : List ℕ) (vsa : ℚ) (seed : ℕ) :
    Except String (List ℕ × List ℕ) :=
  if 0 < vsa ∧ 0 < trainvalIdx.length then
    let trainvalGroups := trainvalIdx.map (fun i => groups.getD i "")
    match groupShuffleSplit (rng seed (uniqueSorted trainvalGroups).length)
        vsa trainvalGroups with
    | Except.error e => Except.error e
    | Except.ok (trL, vaL) =>
      Except.ok (trL.map (fun j => trainvalIdx.getD j 0),
                 vaL.map (fun j => trainvalIdx.getD j 0))
  else Except.ok (trainvalIdx, [])

/-- split_map construction of split_data: train indices are written first,
then val, then test (later writes win, so test has the highest priority),
and every index missing from the map defaults to train. -/
def assignSplits (n : ℕ) (trainIdx valIdx testIdx : List ℕ) : List String :=
  (List.range n).map (fun i =>
    if i ∈ testIdx then "test"
    else if i ∈ valIdx then "val"
    else if i ∈ trainIdx then "train"
    else "train")

/-- split_data of 02_prepare_data.py, with the RandomState permutation made
an explicit argument rng (seed and size to permutation); both stages pass
random_state = seed to a fresh GroupShuffleSplit. -/
def split_data (rng : ℕ → ℕ → List ℕ) (records : List SRecord)
    (rTrain rVal rTest : ℚ) (groupBy : Option String) (seed : ℕ) :
    Except String (List String) :=
  let n := records.length
  let groups := groupsOf records groupBy
  match stage1 rng groups n rTest seed with
  | Except.error e => Except.error e
  | Except.ok (trainvalIdx, testIdx) =>
    match stage2 rng groups trainvalIdx (valSizeAdj rTrain rVal) seed with
    | Except.error e => Except.error e
    | Except.ok (trainIdx, valIdx) =>
      Except.ok (assignSplits n trainIdx valIdx testIdx)

/-- Identity permutation model of the RandomState: a valid permutation used
by concrete witnesses. -/
def idPerm : ℕ → ℕ → List ℕ := fun _ n => List.range n

/-- Four records in two camera groups, the small input of the C6
counterexample. -/
def recsTwoGroups : List SRecord :=
  [⟨"r0", [("camera_id", "a")]⟩, ⟨"r1", [("camera_id", "a")]⟩,
   ⟨"r2", [("camera_id", "b")]⟩, ⟨"r3", [("camera_id", "b")]⟩]

/-- Four records in three camera groups, two of them sharing group a; a
successful split input used by witnesses. -/
def recsThreeGroups : List SRecord :=
  [⟨"r0", [("camera_id", "a")]⟩, ⟨"r1", [("camera_id", "a")]⟩,
   ⟨"r2", [("camera_id", "b")]⟩, ⟨"r3", [("camera_id", "c")]⟩]

/-- Three records in two camera groups of sizes 2 and 1, another input
whose train+val stage keeps a single distinct group. -/
def recsTwoGroupsB : List SRecord :=
  [⟨"s0", [("camera_id", "a")]⟩, ⟨"s1", [("camera_id", "a")]⟩,
   ⟨"s2", [("camera_id", "b")]⟩]

/-- Mean of a list of reals, the tensor mean() operation. -/
noncomputable def listMean (l : List ℝ) : ℝ := l.sum / (l.length : ℝ)

/-- SmoothModulationLoss._compute_modulation: t = min(epoch / max(max_epoch,
1), 1); linear returns t, cosine returns 0.5 * (1 - cos(t * 3.14159)), step
returns 1 from the 50 percent mark on, any other curve returns t. -/
noncomputable def computeModulation (modulationType : String)
    (epoch maxEpoch : ℕ) : ℝ :=
  let t : ℝ := min ((epoch : ℝ) / ((max maxEpoch 1 : ℕ) : ℝ)) 1
  if modulationType = "linear" then t
  else if modulationType = "cosine" then
    (1 / 2) * (1 - Real.cos (t * (314159 / 100000)))
  else if modulationType = "step" then (if (1 : ℝ) / 2 ≤ t then 1 else 0)
  else t

/-- Lines 93 to 99 of smooth_modulation.py: clamp the counts at 1, invert,
raise to the power tau. -/
noncomputable def baseWeights (classCounts : List ℝ) (tau : ℝ) : List ℝ :=
  ((classCounts.map (fun c => max c 1)).map (fun c => 1 / c)).map
    (fun w => w ^ tau)

/-- Line 103 of smooth_modulation.py: blend the sum-normalized weights with
the uniform vector ones/len by the modulation factor, elementwise. -/
noncomputable def blendUniform (ws : List ℝ) (m : ℝ) : List ℝ :=
  ws.map (fun w => (1 - m) * (1 / ((ws.length : ℕ) : ℝ)) + m * (w / ws.sum))

/-- Line 106 of smooth_modulation.py: divide by the mean so the mean
becomes 1. -/
noncomputable def meanNormalize (l : List ℝ) : List ℝ :=
  l.map (fun w => w / listMean l)

/-- SmoothModulationLoss._compute_class_weights: clamp counts at 1, invert,
raise to the power tau, blend with the uniform vector by the modulation
factor, then divide by the mean. -/
noncomputable def computeClassWeights (classCounts : List ℝ)
    (tau modulation : ℝ) : List ℝ :=
  meanNormalize (blendUniform (baseWeights classCounts tau) modulation)

/-- Per-sample weight lookup of SmoothModulationLoss.forward: weights are
computed when class_counts is given and indexed by each target label (a
tensor index raises IndexError when the label is out of range); without
class_counts every sample gets weight 1. -/
noncomputable def weightPerSample (classCounts : Option (List ℝ)) (tau : ℝ)
    (curve : String) (epoch maxEpoch : ℕ) (targets : List ℕ) :
    Except String (List ℝ) :=
  match classCounts with
  | none => Except.ok (targets.map (fun _ => 1))
  | some cc =>
    let m := computeModulation curve epoch maxEpoch
    let weights := computeClassWeights cc tau m
    targets.mapM (fun t =>
      if h : t < weights.length then Except.ok (weights.get ⟨t, h⟩)
      else Except.error "IndexError: target index out of range in weight lookup")

/-- F.cross_entropy with reduction none: minus log softmax of the target
logit per sample (a target beyond the logit row also raises). -/
noncomputable def crossEntropyPerSample (logits : List (List ℝ))
    (targets : List ℕ) : Except String (List ℝ) :=
  (List.zip logits targets).mapM (fun p =>
    if h : p.2 < p.1.length then
      Except.ok (-(Real.log (Real.exp (p.1.get ⟨p.2, h⟩) / (p.1.map Real.exp).sum)))
    else Except.error "IndexError: target index out of range in cross entropy")

/-- SmoothModulationLoss.forward: per-sample weights (looked up first),
then per-sample cross entropy, multiplied elementwise; mean and sum
reductions produce a single element, anything else the raw list. -/
noncomputable def smForward (tau : ℝ) (curve : String) (maxEpoch : ℕ)
    (redu : String) (logits : List (List ℝ)) (targets : List ℕ)
    (classCounts : Option (List ℝ)) (epoch : ℕ) : Except String (List ℝ) :=
  match weightPerSample classCounts tau curve epoch maxEpoch targets with
  | Except.error e => Except.error e
  | Except.ok w =>
    match crossEntropyPerSample logits targets with
    | Except.error e => Except.error e
    | Except.ok ce =>
      let losses := List.zipWith (fun a b => a * b) w ce
      if redu = "mean" then Except.ok [listMean losses]
      else if redu = "sum" then Except.ok [losses.sum]
      else Except.ok losses

/-- State of the EarlyStopping callback of src/utils/callbacks.py. -/
structure ESState where
  counter : ℕ
  bestScore : Option ℚ
  earlyStop : Bool
deriving DecidableEq

/-- One call of the EarlyStopping callback: min mode negates the metric; a
first observation only records it; a non-improving score (score <
best + delta) bumps the counter and trips early_stop at patience; an
improving score resets the counter and updates the best. -/
def esStep (patience : ℕ) (delta : ℚ) (mode : String) (st : ESState)
    (metricVal : ℚ) : ESState :=
  let score := if mode = "min" then -metricVal else metricVal
  match st.bestScore with
  | none => { st with bestScore := some score }
  | some best =>
    if score < best + delta then
      let c := st.counter + 1
      { st with counter := c, earlyStop := st.earlyStop || decide (patience ≤ c) }
    else { counter := 0, bestScore := some score, earlyStop := st.earlyStop }

/-- A checkpoint record of 06_train.py as far as resume is concerned:
epoch, the epoch validation accuracy and the best accuracy so far. -/
structure Ckpt where
  epoch : ℕ
  valAcc : ℚ
  bestValAcc : ℚ
deriving DecidableEq

/-- Mutable state of the epoch loop of train in 06_train.py. -/
structure TrainState where
  best : ℚ
  bestEpoch : ℕ
  es : ESState
  lastCkpt : Option Ckpt
  bestCkpt : Option Ckpt
deriving DecidableEq

/-- Epoch loop of train in 06_train.py over the remaining epoch numbers:
pruning check first (raising TrialPruned), then the best-checkpoint
comparison val_acc > best (saving best.pt on improvement), then the
unconditional last.pt save carrying the running best, then early stopping.
The validation accuracy of each epoch is an oracle argument. -/
def runEpochs (valAcc : ℕ → ℚ) (prune : ℕ → Bool) (patience : ℕ) :
    List ℕ → TrainState → Except String TrainState
  | [], st => Except.ok st
  | e :: rest, st =>
    if prune e then Except.error "TrialPruned"
    else
      let va := valAcc e
      let st1 := if st.best < va then
          { st with best := va, bestEpoch := e, bestCkpt := some ⟨e, va, va⟩ }
        else st
      let st2 := { st1 with lastCkpt := some ⟨e, va, st1.best⟩ }
      let st3 := { st2 with es := esStep patience 0 "max" st2.es va }
      if st3.es.earlyStop then Except.ok st3
      else runEpochs valAcc prune patience rest st3

/-- Resume start epoch of train in 06_train.py line 149: saved epoch plus
one when a last checkpoint exists, otherwise 0. -/
def startEpochOf : Option Ckpt → ℕ
  | some c => c.epoch + 1
  | none => 0

/-- Best metric restored by the resume block, 06_train.py line 150:
checkpoint.get best_val_acc with default 0.0.  The value is a dead store:
line 161 overwrites it before the epoch loop reads it. -/
def restoredBest : Option Ckpt → ℚ
  | some c => c.bestValAcc
  | none => 0

/-- train of 06_train.py reduced to its resume and epoch-loop bookkeeping:
the loop runs from start_epoch to epochs - 1; best_val_acc enters the loop
as 0.0 (line 161), regardless of the value the resume block restored at
line 150. -/
def train06 (ckpt : Option Ckpt) (epochs patience : ℕ) (valAcc : ℕ → ℚ)
    (prune : ℕ → Bool) : Except String TrainState :=
  let startEpoch := startEpochOf ckpt
  let st0 : TrainState :=
    { best := 0, bestEpoch := 0, es := ⟨0, none, false⟩,
      lastCkpt := ckpt, bestCkpt := none }
  runEpochs valAcc prune patience
    (List.range' startEpoch (epochs - startEpoch)) st0

/-- Validation accuracy oracle that is zero at every epoch. -/
def zeroAcc : ℕ → ℚ := fun _ => 0

/-- Validation accuracy oracle that is one half at every epoch. -/
def halfAcc : ℕ → ℚ := fun _ => mkRat 1 2

/-- Pruning oracle that never prunes. -/
def noPrune : ℕ → Bool := fun _ => false

/-- Terminal state of an optuna trial. -/
inductive TrialState where
  | complete
  | pruned
  | failed
deriving DecidableEq

/-- One recorded optuna trial. -/
structure OTrial where
  number : ℕ
  state : TrialState
  value : Option ℚ
deriving DecidableEq

/-- Outcome of one call of the training function inside a trial: a result
record, the TrialPruned signal, or another exception. -/
inductive TrainOutcome where
  | ok (bestValAcc : ℚ) (bestEpoch : ℕ)
  | pruned
  | err (msg : String)
deriving DecidableEq

/-- Outcome of one call of the optuna objective. -/
inductive ObjOutcome where
  | success (v : ℚ)
  | prunedSig
  | exc (msg : String)
deriving DecidableEq

/-- create_objective of optuna_runner.py: run the training function, read
best_val_acc, report it and honor a pruning request; TrialPruned (from the
training function or the report check) propagates as the pruning signal;
any other exception is logged and re-raised. -/
def createObjective (trainFn : ℕ → TrainOutcome) (shouldPrune : ℕ → Bool) :
    ℕ → ObjOutcome := fun t =>
  match trainFn t with
  | TrainOutcome.ok v _ =>
    if shouldPrune t then ObjOutcome.prunedSig else ObjOutcome.success v
  | TrainOutcome.pruned => ObjOutcome.prunedSig
  | TrainOutcome.err m => ObjOutcome.exc m

/-- optuna Study.optimize with the default empty catch set: runs nTrials
new trials, numbering each by the current length of the trial list; a
successful objective records a complete trial, the pruning signal records
a pruned trial and continues, any other exception records a failed trial
and then re-raises, which aborts the optimize loop. -/
def studyOptimize (objective : ℕ → ObjOutcome) (nTrials : ℕ)
    (trials : List OTrial) : List OTrial × Option String :=
  match nTrials with
  | 0 => (trials, none)
  | n + 1 =>
    let t := trials.length
    match objective t with
    | ObjOutcome.success v =>
      studyOptimize objective n (trials ++ [⟨t, TrialState.complete, some v⟩])
    | ObjOutcome.prunedSig =>
      studyOptimize objective n (trials ++ [⟨t, TrialState.pruned, none⟩])
    | ObjOutcome.exc m => (trials ++ [⟨t, TrialState.failed, none⟩], some m)

/-- run_optimization of optuna_runner.py: create_study with load_if_exists
reloads the persisted trial list, then study.optimize runs with the
configured n_trials budget.  Returns the final trial list and the
propagated exception, if any. -/
def run_optimization (existing : List OTrial) (trainFn : ℕ → TrainOutcome)
    (shouldPrune : ℕ → Bool) (nTrials : ℕ) : List OTrial × Option String :=
  studyOptimize (createObjective trainFn shouldPrune) nTrials existing

/-- Four completed trials, the persisted study of the C2 counterexample. -/
def fourDone : List OTrial :=
  [⟨0, TrialState.complete, some 1⟩, ⟨1, TrialState.complete, some 1⟩,
   ⟨2, TrialState.complete, some 1⟩, ⟨3, TrialState.complete, some 1⟩]

/-- Training function that always succeeds with accuracy one. -/
def okTrainFn : ℕ → TrainOutcome := fun _ => TrainOutcome.ok 1 0

/-- Training function that raises on every call. -/
def errTrainFn : ℕ → TrainOutcome := fun _ => TrainOutcome.err "boom"

lemma split_data_threeGroups_eval :
    split_data idPerm recsThreeGroups (mkRat 7 10) (mkRat 3 20)
      (mkRat 3 20) (some "camera_id") 42 =
    Except.ok ["test", "test", "val", "train"] := by decide

lemma runEpochs_best_zero (valAcc : ℕ → ℚ) (prune : ℕ → Bool)
    (patience : ℕ) (l : List ℕ) (st st' : TrainState)
    (hva : ∀ e ∈ l, valAcc e ≤ 0) (hb : st.best = 0)
    (h : runEpochs valAcc prune patience l st = Except.ok st') :
    st'.best = 0 := by
  induction l generalizing st with
  | nil =>
    unfold runEpochs at h
    cases h
    exact hb
  | cons e rest ih =>
    unfold runEpochs at h
    by_cases hp : prune e
    · rw [if_pos hp] at h
      cases h
    · rw [if_neg hp] at h
      dsimp only at h
      have hva0 : valAcc e ≤ 0 := hva e (by simp)
      have hnot : ¬ st.best < valAcc e := by
        rw [hb]
        exact not_lt.mpr hva0
      rw [if_neg hnot] at h
      split at h
      · cases h
        exact hb
      · exact ih ⟨st.best, st.bestEpoch, esStep patience 0 "max" st.es (valAcc e),
            some ⟨e, valAcc e, st.best⟩, st.bestCkpt⟩
          (fun x hx => hva x (List.mem_cons_of_mem _ hx)) hb h

lemma studyOptimize_length_no_err (objective : ℕ → ObjOutcome) (n : ℕ)
    (hok : ∀ t m, objective t ≠ ObjOutcome.exc m) (existing : List OTrial) :
    (studyOptimize objective n existing).1.length = existing.length + n := by
  induction n generalizing existing with
  | zero => rfl
  | succ n ih =>
    unfold studyOptimize
    cases hob : objective existing.length with
    | success v =>
      dsimp only
      rw [hob]
      dsimp only
      simp only [ih, List.length_append, List.length_cons, List.length_nil]
      omega
    | prunedSig =>
      dsimp only
      rw [hob]
      dsimp only
      simp only [ih, List.length_append, List.length_cons, List.length_nil]
      omega
    | exc m => exact absurd hob (hok existing.length m)

/-- C1: on resume from a last checkpoint with epoch 4 and best metric 9/10,
the epoch loop starts at epoch 5 as the claim states, but the best metric
used by the best-checkpoint comparison is the reset value 0, not the
restored 9/10: an epoch scoring 1/2 < 9/10 becomes the new best and
overwrites best.pt.  This exhibits the divergence of 06_train.py line 161
from the restore at line 150. -/
theorem C1_resume_best_reset_eval :
    startEpochOf (some ⟨4, mkRat 1 2, mkRat 9 10⟩) = 5 ∧
    restoredBest (some ⟨4, mkRat 1 2, mkRat 9 10⟩) = mkRat 9 10 ∧
    train06 (some ⟨4, mkRat 1 2, mkRat 9 10⟩) 6 10 halfAcc noPrune =
      Except.ok ⟨mkRat 1 2, 5, ⟨0, some (mkRat 1 2), false⟩,
        some ⟨5, mkRat 1 2, mkRat 1 2⟩, some ⟨5, mkRat 1 2, mkRat 1 2⟩⟩ ∧
    mkRat 1 2 < mkRat 9 10 := by decide

/-- C7 counterexample: a fresh three-epoch run whose validation metric is 0
at every epoch returns best metric 0, the initialization value, which is
not negative and therefore is not a minus-infinity-like sentinel
distinguishable from a genuine 0 score. -/
theorem C7_counterexample :
    train06 none 3 10 zeroAcc noPrune =
      Except.ok ⟨0, 0, ⟨0, some 0, false⟩, some ⟨2, 0, 0⟩, none⟩ ∧
    ¬ ((0 : ℚ) < 0) := by decide

/-- C7 amended: a fresh run in which no epoch beats the 0 initialization
(every validation metric is at most 0) returns best metric exactly 0; the
code has no minus-infinity sentinel, so such a run is indistinguishable
from one that genuinely scored 0. -/
theorem C7_best_is_zero_when_no_improvement (epochs patience : ℕ)
    (valAcc : ℕ → ℚ) (prune : ℕ → Bool) (st : TrainState)
    (hva : ∀ e, valAcc e ≤ 0)
    (h : train06 none epochs patience valAcc prune = Except.ok st) :
    st.best = 0 := by
  exact runEpochs_best_zero valAcc prune patience _ _ st
    (fun e _ => hva e) rfl h

/-- C7 witness: the amended theorem applied to the all-zero three-epoch
run. -/
theorem C7_best_is_zero_witness :
    (⟨0, 0, ⟨0, some 0, false⟩, some ⟨2, 0, 0⟩, none⟩ : TrainState).best = 0 :=
  C7_best_is_zero_when_no_improvement 3 10 zeroAcc noPrune _
    (fun _ => le_refl 0) (by decide)

/-- C2 counterexample: a persisted study with 4 completed trials, re-run
with a budget of 10 trials, ends with 14 trials, not 10: optuna optimize
runs n_trials new trials and does not subtract the terminated ones. -/
theorem C2_counterexample :
    (run_optimization fourDone okTrainFn noPrune 10).1.length = 14 ∧
    (14 : ℕ) ≠ 10 := by decide

/-- C2 amended: reloading a persisted study with k terminated trials and
calling run_optimization with budget n runs exactly n further trials (as
long as none raises a non-pruning exception), so the trial list ends with
k + n entries; the budget is not reduced by the previously terminated
trials. -/
theorem C2_budget_not_reduced (existing : List OTrial)
    (trainFn : ℕ → TrainOutcome) (sp : ℕ → Bool) (n : ℕ)
    (hok : ∀ t m, trainFn t ≠ TrainOutcome.err m) :
    (run_optimization existing trainFn sp n).1.length =
      existing.length + n := by
  apply studyOptimize_length_no_err
  intro t m hc
  unfold createObjective at hc
  cases hft : trainFn t with
  | ok v e => rw [hft] at hc; by_cases hsp : sp t = true <;> simp [hsp] at hc
  | pruned => rw [hft] at hc; cases hc
  | err msg => exact hok t msg hft

/-- C2 witness: the amended theorem applied to the four-trial study with a
ten-trial budget. -/
theorem C2_budget_not_reduced_witness :
    (run_optimization fourDone okTrainFn noPrune 10).1.length =
      fourDone.length + 10 :=
  C2_budget_not_reduced fourDone okTrainFn noPrune 10
    (fun _ _ h => TrainOutcome.noConfusion h)

/-- C4 counterexample: a three-trial budget whose first objective raises a
non-pruning exception ends with exactly one trial, recorded failed, and the
exception propagates out of run_optimization; the remaining two trials of
the budget never run. -/
theorem C4_counterexample :
    run_optimization [] errTrainFn noPrune 3 =
      ([⟨0, TrialState.failed, none⟩], some "boom") ∧
    (1 : ℕ) ≠ 3 := by decide

/-- C4 amended: when the training function raises a non-pruning exception
in the next trial, the study records that trial as failed, but the
exception propagates out of run_optimization (study.optimize runs with an
empty catch set) and no further trial of the budget executes; only the
pruning signal is caught and lets the study continue. -/
theorem C4_failure_recorded_then_propagates (existing : List OTrial)
    (tf : ℕ → TrainOutcome) (sp : ℕ → Bool) (n : ℕ) (msg : String)
    (hn : 0 < n) (hf : tf existing.length = TrainOutcome.err msg) :
    run_optimization existing tf sp n =
      (existing ++ [⟨existing.length, TrialState.failed, none⟩], some msg) := by
  cases n with
  | zero => cases hn
  | succ n =>
    unfold run_optimization studyOptimize createObjective
    dsimp only
    rw [hf]

/-- C4 witness: the amended theorem applied to the always-raising training
function with a three-trial budget. -/
theorem C4_failure_witness :
    run_optimization [] errTrainFn noPrune 3 =
      ([⟨0, TrialState.failed, none⟩], some "boom") :=
  C4_failure_recorded_then_propagates [] errTrainFn noPrune 3 "boom"
    (by decide) rfl

/-- C9: split_data is a pure function of its inputs; two calls whose
records, ratios, grouping key, seed and permutation source agree
componentwise return the same assignment.  The embedding passes the
RandomState permutation explicitly as a function of the seed, so no state
outside the argument tuple influences the result. -/
theorem C9_split_deterministic (rng1 rng2 : ℕ → ℕ → List ℕ)
    (records1 records2 : List SRecord) (rT1 rT2 rV1 rV2 rTe1 rTe2 : ℚ)
    (gb1 gb2 : Option String) (seed1 seed2 : ℕ)
    (hr : rng1 = rng2) (hrec : records1 = records2) (ht : rT1 = rT2)
    (hv : rV1 = rV2) (hte : rTe1 = rTe2) (hg : gb1 = gb2)
    (hs : seed1 = seed2) :
    split_data rng1 records1 rT1 rV1 rTe1 gb1 seed1 =
      split_data rng2 records2 rT2 rV2 rTe2 gb2 seed2 := by
  rw [hr, hrec, ht, hv, hte, hg, hs]

/-- C9 witness: two literally identical calls on the three-group records
agree. -/
theorem C9_split_deterministic_witness :
    split_data idPerm recsThreeGroups (mkRat 7 10) (mkRat 3 20) (mkRat 3 20)
      (some "camera_id") 42 =
    split_data idPerm recsThreeGroups (mkRat 7 10) (mkRat 3 20) (mkRat 3 20)
      (some "camera_id") 42 :=
  C9_split_deterministic idPerm idPerm recsThreeGroups recsThreeGroups
    (mkRat 7 10) (mkRat 7 10) (mkRat 3 20) (mkRat 3 20) (mkRat 3 20)
    (mkRat 3 20) (some "camera_id") (some "camera_id") 42 42
    rfl rfl rfl rfl rfl rfl rfl

lemma sum_map_affine (l : List ℝ) (a b : ℝ) :
    (l.map (fun w => a + b * w)).sum = l.length * a + b * l.sum := by
  induction l with
  | nil => simp
  | cons x xs ih =>
    simp only [List.map_cons, List.sum_cons, ih, List.length_cons]
    push_cast
    ring

lemma sum_map_div (l : List ℝ) (c : ℝ) :
    (l.map (fun w => w / c)).sum = l.sum / c := by
  induction l with
  | nil => simp
  | cons x xs ih =>
    simp only [List.map_cons, List.sum_cons, ih]
    ring

lemma baseWeights_length (cc : List ℝ) (tau : ℝ) :
    (baseWeights cc tau).length = cc.length := by
  simp [baseWeights]

lemma baseWeights_pos (cc : List ℝ) (tau : ℝ) :
    ∀ w ∈ baseWeights cc tau, 0 < w := by
  intro w hw
  simp only [baseWeights, List.mem_map] at hw
  obtain ⟨v, ⟨u, ⟨c, _, rfl⟩, rfl⟩, rfl⟩ := hw
  have h1 : (0 : ℝ) < max c 1 := lt_of_lt_of_le one_pos (le_max_right c 1)
  exact Real.rpow_pos_of_pos (by positivity) tau

lemma blendUniform_sum (ws : List ℝ) (m : ℝ) (hS : ws.sum ≠ 0)
    (hn : ((ws.length : ℕ) : ℝ) ≠ 0) : (blendUniform ws m).sum = 1 := by
  unfold blendUniform
  have hfun : (fun w => (1 - m) * (1 / ((ws.length : ℕ) : ℝ)) + m * (w / ws.sum)) =
      (fun w => ((1 - m) * (1 / ((ws.length : ℕ) : ℝ))) + (m / ws.sum) * w) := by
    funext w
    ring
  rw [hfun, sum_map_affine]
  field_simp

lemma blendUniform_length (ws : List ℝ) (m : ℝ) :
    (blendUniform ws m).length = ws.length := by
  simp [blendUniform]

lemma computeClassWeights_length (cc : List ℝ) (tau m : ℝ) :
    (computeClassWeights cc tau m).length = cc.length := by
  simp [computeClassWeights, meanNormalize, blendUniform, baseWeights]

lemma computeClassWeights_mean (cc : List ℝ) (tau m : ℝ) (hne : cc ≠ []) :
    listMean (computeClassWeights cc tau m) = 1 := by
  have hlen0 : cc.length ≠ 0 := fun h => hne (List.length_eq_zero.mp h)
  have hwlen : (baseWeights cc tau).length = cc.length := baseWeights_length cc tau
  have hwne : baseWeights cc tau ≠ [] := by
    intro h
    rw [h] at hwlen
    exact hlen0 hwlen.symm
  have hS : 0 < (baseWeights cc tau).sum :=
    List.sum_pos _ (baseWeights_pos cc tau) hwne
  have hn : (((baseWeights cc tau).length : ℕ) : ℝ) ≠ 0 := by
    rw [hwlen]
    exact_mod_cast hlen0
  have hbsum : (blendUniform (baseWeights cc tau) m).sum = 1 :=
    blendUniform_sum _ m (ne_of_gt hS) hn
  have hblen : ((blendUniform (baseWeights cc tau) m).length : ℝ) =
      ((baseWeights cc tau).length : ℝ) := by
    rw [blendUniform_length]
  unfold computeClassWeights meanNormalize
  rw [listMean, sum_map_div, List.length_map]
  rw [listMean, hbsum, hblen]
  field_simp

lemma mapM_const_error {α β : Type _} (f : α → Except String β) (msg : String)
    (hmsg : ∀ a e, f a = Except.error e → e = msg) (l : List α) (a : α)
    (ha : a ∈ l) (hne : ∀ b, f a ≠ Except.ok b) :
    l.mapM f = Except.error msg := by
  induction l with
  | nil => cases ha
  | cons x xs ih =>
    rw [List.mapM_cons]
    cases hx : f x with
    | error e =>
      rw [hmsg x e hx]
      rfl
    | ok b =>
      have hax : a ≠ x := by
        intro hax
        rw [hax] at hne
        exact hne b hx
      have haxs : a ∈ xs := by
        cases ha with
        | head => exact absurd rfl hax
        | tail _ h => exact h
      have hxs := ih haxs
      show (xs.mapM f >>= fun ys => pure (b :: ys)) = Except.error msg
      rw [hxs]
      rfl

/-- C8: for every nonempty class count vector, every tau, every epoch and
every modulation curve, the class weight vector produced by the modulation
schedule has mean exactly 1 after blending uniform and inverse-frequency
weights and renormalizing. -/
theorem C8_weight_mean_one (classCounts : List ℝ) (tau : ℝ) (curve : String)
    (epoch maxEpoch : ℕ) (hne : classCounts ≠ []) :
    listMean (computeClassWeights classCounts tau
      (computeModulation curve epoch maxEpoch)) = 1 :=
  computeClassWeights_mean classCounts tau _ hne

/-- C8 witness: the long-tail two-class example of the spec, tau one half,
cosine curve, epoch 25 of 50. -/
theorem C8_weight_mean_one_witness :
    listMean (computeClassWeights [100, 10] (1 / 2)
      (computeModulation "cosine" 25 50)) = 1 :=
  C8_weight_mean_one [100, 10] (1 / 2) "cosine" 25 50 (by simp)

/-- C5 counterexample: a batch with class_counts of length 2 and a target
label 2 makes SmoothModulationLoss.forward raise IndexError at the
per-sample weight lookup instead of treating the missing class as count 1:
the claim that forward does not raise is false on the code. -/
theorem C5_counterexample :
    smForward (1 / 2) "cosine" 50 "mean" [[0, 0, 0], [0, 0, 0]] [0, 2]
      (some [5, 3]) 0 =
    Except.error "IndexError: target index out of range in weight lookup" := by
  have hlen : (computeClassWeights [5, 3] (1 / 2)
      (computeModulation "cosine" 0 50)).length = 2 :=
    computeClassWeights_length [5, 3] (1 / 2) _
  unfold smForward weightPerSample
  dsimp only
  have h0 : (0 : ℕ) < (computeClassWeights [5, 3] (1 / 2)
      (computeModulation "cosine" 0 50)).length := by omega
  have h2 : ¬ (2 : ℕ) < (computeClassWeights [5, 3] (1 / 2)
      (computeModulation "cosine" 0 50)).length := by omega
  rw [List.mapM_cons, List.mapM_cons, dif_pos h0, dif_neg h2]
  rfl

/-- C5 amended: whenever the target labels contain a class index at or
beyond the length of class_counts, SmoothModulationLoss.forward raises
IndexError at the per-sample weight lookup; only in-range classes are
protected by the count clamp at 1. -/
theorem C5_out_of_range_raises (tau : ℝ) (curve : String) (maxEpoch : ℕ)
    (redu : String) (logits : List (List ℝ)) (targets : List ℕ) (cc : List ℝ)
    (epoch : ℕ) (t : ℕ) (ht : t ∈ targets) (hoob : cc.length ≤ t) :
    smForward tau curve maxEpoch redu logits targets (some cc) epoch =
      Except.error "IndexError: target index out of range in weight lookup" := by
  have hlen := computeClassWeights_length cc tau (computeModulation curve epoch maxEpoch)
  have hw : weightPerSample (some cc) tau curve epoch maxEpoch targets =
      Except.error "IndexError: target index out of range in weight lookup" := by
    unfold weightPerSample
    dsimp only
    refine mapM_const_error _ _ ?_ targets t ht ?_
    · intro a e he
      by_cases h : a < (computeClassWeights cc tau
          (computeModulation curve epoch maxEpoch)).length
      · rw [dif_pos h] at he
        cases he
      · rw [dif_neg h] at he
        injection he with h2
        exact h2.symm
    · intro b hb
      have hnlt : ¬ t < (computeClassWeights cc tau
          (computeModulation curve epoch maxEpoch)).length := by omega
      rw [dif_neg hnlt] at hb
      cases hb
  unfold smForward
  rw [hw]

/-- C5 witness: the amended theorem applied to a three-sample batch whose
last target label 3 exceeds the two-class class_counts. -/
theorem C5_out_of_range_raises_witness :
    smForward (1 / 2) "linear" 50 "none" [[0, 0], [0, 0], [0, 0]] [0, 1, 3]
      (some [5, 3]) 1 =
    Except.error "IndexError: target index out of range in weight lookup" :=
  C5_out_of_range_raises (1 / 2) "linear" 50 "none" [[0, 0], [0, 0], [0, 0]]
    [0, 1, 3] [5, 3] 1 3 (by decide) (by decide)

lemma mem_filterRange (n : ℕ) (p : ℕ → Bool) (i : ℕ) :
    i ∈ (List.range n).filter p ↔ i < n ∧ p i = true := by
  simp [List.mem_filter, List.mem_range, and_comm]

lemma getD_map_of_lt {α β : Type _} (f : α → β) (l : List α) (j : ℕ)
    (h : j < l.length) (d : β) (d0 : α) :
    (l.map f).getD j d = f (l.getD j d0) := by
  rw [List.getD_eq_getElem?_getD, List.getD_eq_getElem?_getD,
    List.getElem?_map, List.getElem?_eq_getElem h]
  simp

lemma gss_ok_shape (perm : List ℕ) (ts : ℚ) (groups : List String)
    (tr te : List ℕ) (h : groupShuffleSplit perm ts groups = Except.ok (tr, te)) :
    ∃ p q : String → Bool,
      tr = (List.range groups.length).filter (fun i => p (groups.getD i "")) ∧
      te = (List.range groups.length).filter (fun i => q (groups.getD i "")) := by
  unfold groupShuffleSplit at h
  dsimp only at h
  cases hv : validate_shuffle_split (uniqueSorted groups).length ts with
  | error e =>
    rw [hv] at h
    cases h
  | ok nn =>
    obtain ⟨nTrain, nTest⟩ := nn
    rw [hv] at h
    dsimp only at h
    injection h with h1
    injection h1 with htr hte
    subst htr
    subst hte
    exact ⟨fun g => decide ((uniqueSorted groups).indexOf g ∈ (perm.drop nTest).take nTrain),
      fun g => decide ((uniqueSorted groups).indexOf g ∈ perm.take nTest), rfl, rfl⟩

lemma stage1_ok_shape (rng : ℕ → ℕ → List ℕ) (groups : List String) (n : ℕ)
    (rTest : ℚ) (seed : ℕ) (tv te : List ℕ) (hn : groups.length = n)
    (h : stage1 rng groups n rTest seed = Except.ok (tv, te)) :
    ∃ p q : String → Bool,
      (∀ i, i ∈ tv ↔ i < n ∧ p (groups.getD i "") = true) ∧
      (∀ i, i ∈ te ↔ i < n ∧ q (groups.getD i "") = true) := by
  unfold stage1 at h
  by_cases hr : 0 < rTest
  · rw [if_pos hr] at h
    obtain ⟨p, q, h1, h2⟩ := gss_ok_shape _ _ _ _ _ h
    refine ⟨p, q, ?_, ?_⟩
    · intro i
      rw [h1, mem_filterRange, hn]
    · intro i
      rw [h2, mem_filterRange, hn]
  · rw [if_neg hr] at h
    injection h with h1
    injection h1 with htv hte
    subst htv
    subst hte
    refine ⟨fun _ => true, fun _ => false, ?_, ?_⟩
    · intro i
      simp [List.mem_range]
    · intro i
      simp

lemma mem_localized (tv : List ℕ) (groups : List String) (p : String → Bool)
    (i : ℕ) :
    i ∈ ((List.range (tv.map (fun k => groups.getD k "")).length).filter
        (fun j => p ((tv.map (fun k => groups.getD k "")).getD j ""))).map
      (fun j => tv.getD j 0) ↔
    i ∈ tv ∧ p (groups.getD i "") = true := by
  constructor
  · intro hm
    rw [List.mem_map] at hm
    obtain ⟨j, hj, hji⟩ := hm
    rw [mem_filterRange] at hj
    obtain ⟨hjlt, hp⟩ := hj
    rw [List.length_map] at hjlt
    have hgd : (tv.map (fun k => groups.getD k "")).getD j "" =
        groups.getD (tv.getD j 0) "" := getD_map_of_lt _ tv j hjlt "" 0
    have hmem : tv.getD j 0 ∈ tv := by
      rw [List.getD_eq_getElem?_getD, List.getElem?_eq_getElem hjlt]
      simp [List.getElem_mem]
    rw [← hji]
    refine ⟨hmem, ?_⟩
    rw [← hgd]
    exact hp
  · rintro ⟨hi, hp⟩
    obtain ⟨⟨j, hjlt⟩, hji⟩ := List.mem_iff_get.mp hi
    have hgdj : tv.getD j 0 = i := by
      rw [List.getD_eq_getElem?_getD, List.getElem?_eq_getElem hjlt]
      simpa using hji
    rw [List.mem_map]
    refine ⟨j, ?_, hgdj⟩
    rw [mem_filterRange, List.length_map]
    refine ⟨hjlt, ?_⟩
    rw [getD_map_of_lt _ tv j hjlt "" 0, hgdj]
    exact hp

lemma stage2_ok_mem (rng : ℕ → ℕ → List ℕ) (groups : List String)
    (tv : List ℕ) (vsa : ℚ) (seed : ℕ) (tr va : List ℕ)
    (h : stage2 rng groups tv vsa seed = Except.ok (tr, va)) :
    ∃ p q : String → Bool,
      (∀ i, i ∈ tr ↔ i ∈ tv ∧ p (groups.getD i "") = true) ∧
      (∀ i, i ∈ va ↔ i ∈ tv ∧ q (groups.getD i "") = true) := by
  unfold stage2 at h
  by_cases hc : 0 < vsa ∧ 0 < tv.length
  · rw [if_pos hc] at h
    dsimp only at h
    cases hg : groupShuffleSplit
        (rng seed (uniqueSorted (tv.map (fun i => groups.getD i ""))).length)
        vsa (tv.map (fun i => groups.getD i "")) with
    | error e =>
      rw [hg] at h
      cases h
    | ok pr =>
      obtain ⟨trL, vaL⟩ := pr
      rw [hg] at h
      dsimp only at h
      injection h with h1
      injection h1 with htr hva
      subst htr
      subst hva
      obtain ⟨p, q, h2, h3⟩ := gss_ok_shape _ _ _ _ _ hg
      refine ⟨p, q, ?_, ?_⟩
      · intro i
        rw [h2]
        exact mem_localized tv groups p i
      · intro i
        rw [h3]
        exact mem_localized tv groups q i
  · rw [if_neg hc] at h
    injection h with h1
    injection h1 with htr hva
    subst htr
    subst hva
    exact ⟨fun _ => true, fun _ => false, fun i => by simp, fun i => by simp⟩

lemma assignSplits_getD (n : ℕ) (tr va te : List ℕ) (i : ℕ) (hi : i < n) :
    (assignSplits n tr va te).getD i "" =
      if i ∈ te then "test" else if i ∈ va then "val"
      else if i ∈ tr then "train" else "train" := by
  unfold assignSplits
  rw [getD_map_of_lt _ (List.range n) i (by simpa using hi) "" 0]
  have hr : (List.range n).getD i 0 = i := by
    rw [List.getD_eq_getElem?_getD, List.getElem?_range hi]
    rfl
  rw [hr]

lemma validate_one_eq (ts : ℚ) (h0 : 0 < ts) (h1 : ts < 1) :
    validate_shuffle_split 1 ts =
      Except.error "the resulting train set will be empty" := by
  unfold validate_shuffle_split
  rw [if_neg (by push_neg; exact ⟨h0, h1⟩)]
  dsimp only
  have hceil : Int.ceil (ts * ((1 : ℕ) : ℚ)) = 1 := by
    rw [Nat.cast_one, mul_one, Int.ceil_eq_iff]
    constructor
    · push_cast
      linarith
    · push_cast
      linarith
  rw [hceil]
  rfl

lemma gss_single_group (perm : List ℕ) (ts : ℚ) (gs : List String)
    (hone : (uniqueSorted gs).length = 1) (h0 : 0 < ts) (h1 : ts < 1) :
    groupShuffleSplit perm ts gs =
      Except.error "the resulting train set will be empty" := by
  unfold groupShuffleSplit
  dsimp only
  rw [hone, validate_one_eq ts h0 h1]

/-- C3: for every record list, ratio triple, grouping choice, seed and
permutation source, a successful split_data assignment places any two
records with equal extracted group key into the same partition, so no group
key value is spread over more than one of train, val, test. -/
theorem C3_no_group_leakage (rng : ℕ → ℕ → List ℕ) (records : List SRecord)
    (rT rV rTe : ℚ) (gb : Option String) (seed : ℕ) (splits : List String)
    (i j : ℕ)
    (h : split_data rng records rT rV rTe gb seed = Except.ok splits)
    (hi : i < records.length) (hj : j < records.length)
    (hg : extract_group_key (records.getD i ⟨"", []⟩) gb =
          extract_group_key (records.getD j ⟨"", []⟩) gb) :
    splits.getD i "" = splits.getD j "" := by
  have hglen : (groupsOf records gb).length = records.length := by
    simp [groupsOf]
  have hgi : (groupsOf records gb).getD i "" =
      extract_group_key (records.getD i ⟨"", []⟩) gb :=
    getD_map_of_lt _ records i hi "" ⟨"", []⟩
  have hgj : (groupsOf records gb).getD j "" =
      extract_group_key (records.getD j ⟨"", []⟩) gb :=
    getD_map_of_lt _ records j hj "" ⟨"", []⟩
  have hgg : (groupsOf records gb).getD i "" =
      (groupsOf records gb).getD j "" := by
    rw [hgi, hgj, hg]
  unfold split_data at h
  dsimp only at h
  cases h1 : stage1 rng (groupsOf records gb) records.length rTe seed with
  | error e =>
    rw [h1] at h
    cases h
  | ok pr1 =>
    obtain ⟨tv, te⟩ := pr1
    rw [h1] at h
    dsimp only at h
    cases h2 : stage2 rng (groupsOf records gb) tv (valSizeAdj rT rV) seed with
    | error e =>
      rw [h2] at h
      cases h
    | ok pr2 =>
      obtain ⟨tr, va⟩ := pr2
      rw [h2] at h
      dsimp only at h
      injection h with hsp
      subst hsp
      obtain ⟨p1, q1, htv, hte⟩ :=
        stage1_ok_shape rng (groupsOf records gb) records.length rTe seed
          tv te hglen h1
      obtain ⟨p2, q2, htr, hva⟩ :=
        stage2_ok_mem rng (groupsOf records gb) tv (valSizeAdj rT rV) seed
          tr va h2
      have hifftv : (i ∈ tv) ↔ (j ∈ tv) := by
        rw [htv i, htv j, hgg]
        simp [hi, hj]
      have hiffte : (i ∈ te) ↔ (j ∈ te) := by
        rw [hte i, hte j, hgg]
        simp [hi, hj]
      have hiffva : (i ∈ va) ↔ (j ∈ va) := by
        rw [hva i, hva j, hgg]
        exact and_congr hifftv Iff.rfl
      have hifftr : (i ∈ tr) ↔ (j ∈ tr) := by
        rw [htr i, htr j, hgg]
        exact and_congr hifftv Iff.rfl
      rw [assignSplits_getD records.length tr va te i hi,
        assignSplits_getD records.length tr va te j hj]
      rw [if_congr hiffte rfl (if_congr hiffva rfl (if_congr hifftr rfl rfl))]

/-- C3 witness: on the three-group records, the two records sharing camera
group a land in the same partition. -/
theorem C3_no_group_leakage_witness :
    (["test", "test", "val", "train"] : List String).getD 0 "" =
      (["test", "test", "val", "train"] : List String).getD 1 "" :=
  C3_no_group_leakage idPerm recsThreeGroups (mkRat 7 10) (mkRat 3 20)
    (mkRat 3 20) (some "camera_id") 42 ["test", "test", "val", "train"] 0 1
    (by decide) (by decide) (by decide) (by decide)

/-- C10: a successful split_data assignment gives every record exactly one
label out of train, val, test (the assignment list has one entry per record
and every entry is one of the three labels), and the split-map construction
sends every index missed by both group-level splits to train. -/
theorem C10_every_record_assigned :
    (∀ (rng : ℕ → ℕ → List ℕ) (records : List SRecord) (rT rV rTe : ℚ)
      (gb : Option String) (seed : ℕ) (splits : List String),
      split_data rng records rT rV rTe gb seed = Except.ok splits →
      splits.length = records.length ∧
        ∀ s ∈ splits, s = "train" ∨ s = "val" ∨ s = "test") ∧
    (∀ (n : ℕ) (tr va te : List ℕ) (i : ℕ), i < n → i ∉ te → i ∉ va →
      i ∉ tr → (assignSplits n tr va te).getD i "" = "train") := by
  constructor
  · intro rng records rT rV rTe gb seed splits h
    unfold split_data at h
    dsimp only at h
    cases h1 : stage1 rng (groupsOf records gb) records.length rTe seed with
    | error e =>
      rw [h1] at h
      cases h
    | ok pr1 =>
      obtain ⟨tv, te⟩ := pr1
      rw [h1] at h
      dsimp only at h
      cases h2 : stage2 rng (groupsOf records gb) tv (valSizeAdj rT rV) seed with
      | error e =>
        rw [h2] at h
        cases h
      | ok pr2 =>
        obtain ⟨tr, va⟩ := pr2
        rw [h2] at h
        dsimp only at h
        injection h with hsp
        subst hsp
        constructor
        · simp [assignSplits]
        · intro s hs
          unfold assignSplits at hs
          rw [List.mem_map] at hs
          obtain ⟨k, _, rfl⟩ := hs
          by_cases h3 : k ∈ te
          · simp [h3]
          · by_cases h4 : k ∈ va
            · simp [h3, h4]
            · by_cases h5 : k ∈ tr
              · simp [h3, h4, h5]
              · simp [h3, h4, h5]
  · intro n tr va te i hi h3 h4 h5
    rw [assignSplits_getD n tr va te i hi, if_neg h3, if_neg h4, if_neg h5]

/-- C10 witness: the theorem applied to the successful three-group split
and, for the default clause, to an index outside all three index lists. -/
theorem C10_every_record_assigned_witness :
    ((["test", "test", "val", "train"] : List String).length =
        recsThreeGroups.length ∧
      ∀ s ∈ (["test", "test", "val", "train"] : List String),
        s = "train" ∨ s = "val" ∨ s = "test") ∧
    (assignSplits 1 [] [] []).getD 0 "" = "train" :=
  ⟨C10_every_record_assigned.1 idPerm recsThreeGroups (mkRat 7 10)
      (mkRat 3 20) (mkRat 3 20) (some "camera_id") 42
      ["test", "test", "val", "train"] (by decide),
   C10_every_record_assigned.2 1 [] [] [] 0 (by decide) (by decide)
      (by decide) (by decide)⟩

/-- C6 counterexample: four records in two camera groups under the default
3-way ratios (0.7, 0.15, 0.15) make split_data raise the sklearn error
about an empty train set instead of returning a deterministic assignment
with an empty partition. -/
theorem C6_counterexample :
    split_data idPerm recsTwoGroups (mkRat 7 10) (mkRat 3 20) (mkRat 3 20)
      (some "camera_id") 42 =
    Except.error "the resulting train set will be empty" := by decide

/-- C6 amended: whenever the first split succeeds but leaves the train+val
side with a single distinct group (as happens with 1 or 2 distinct groups
under a 3-way ratio), split_data raises the empty-train-set validation
error of the group-level shuffle split rather than returning an
assignment. -/
theorem C6_single_trainval_group_raises (rng : ℕ → ℕ → List ℕ)
    (records : List SRecord) (rT rV rTe : ℚ) (gb : Option String) (seed : ℕ)
    (tv te : List ℕ)
    (h1 : stage1 rng (groupsOf records gb) records.length rTe seed =
      Except.ok (tv, te))
    (hv0 : 0 < valSizeAdj rT rV) (hv1 : valSizeAdj rT rV < 1)
    (htv : 0 < tv.length)
    (hone : (uniqueSorted (tv.map
      (fun i => (groupsOf records gb).getD i ""))).length = 1) :
    split_data rng records rT rV rTe gb seed =
      Except.error "the resulting train set will be empty" := by
  unfold split_data
  dsimp only
  rw [h1]
  dsimp only
  have h2 : stage2 rng (groupsOf records gb) tv (valSizeAdj rT rV) seed =
      Except.error "the resulting train set will be empty" := by
    unfold stage2
    rw [if_pos ⟨hv0, htv⟩]
    dsimp only
    rw [gss_single_group _ _ _ hone hv0 hv1]
  rw [h2]

/-- C6 witness: the amended theorem applied to three records in two camera
groups, whose train+val stage keeps only group b. -/
theorem C6_single_trainval_group_witness :
    split_data idPerm recsTwoGroupsB (mkRat 7 10) (mkRat 3 20) (mkRat 3 20)
      (some "camera_id") 42 =
    Except.error "the resulting train set will be empty" :=
  C6_single_trainval_group_raises idPerm recsTwoGroupsB (mkRat 7 10)
    (mkRat 3 20) (mkRat 3 20) (some "camera_id") 42 [2] [0, 1]
    (by decide) (by decide) (by decide) (by decide) (by decide)
